import Mathlib

/-!
Verification of `utils/llvm-bolt-wrapper.py` (BOLT differential-testing wrapper).

The script runs a "base" and a "comparison" build of `llvm-bolt` on the same
input, then compares exit codes, captured stdout/stderr (through
`compare_logs`), and the produced output binaries (byte comparison with a
fallback to ELF-header comparison and a first-differing-byte offset).

This file gives a shallow embedding of the pure comparison logic:
  * Python string/list primitives used by the script (`str.splitlines`,
    `str.split`, negative-end slicing `l[:-k]`, `list.index`, indexing),
  * a small regular-expression model sufficient for the five patterns in
    `SKIP_MATCH` and for `parse_cmp_offset`'s pattern `byte (\d+),`,
  * the functions `compare_logs`, `compare_headers`, `parse_cmp_offset`,
    `report_real_time`, `prepend_dash`, `preprocess_args`, `replace_cmp_path`,
  * the decision pipeline of `main` after both subprocesses have been awaited
    (`mainAfterWait`), with the external-world data (the `cmp` tool's result,
    the first four bytes of the output file, the two `readelf` dumps) passed
    in explicitly, and Python's fallible operations (`list.index`, `[-1]`,
    `.groups()` on a failed match) modelled as `Option` / distinguished
    error outcomes.
-/

/-! ## Python string primitives -/

/-- The line-boundary characters of Python `str.splitlines`:
`\n`, `\r`, `\v` (0x0b), `\f` (0x0c), FS (0x1c), GS (0x1d), RS (0x1e),
NEL (0x85), LS (0x2028), PS (0x2029); `\r\n` counts as a single boundary. -/
def isLineBoundary (c : Char) : Bool :=
  c == '\n' || c == '\r' || c == Char.ofNat 0x0b || c == Char.ofNat 0x0c ||
  c == Char.ofNat 0x1c || c == Char.ofNat 0x1d || c == Char.ofNat 0x1e ||
  c == Char.ofNat 0x85 || c == Char.ofNat 0x2028 || c == Char.ofNat 0x2029

/-- Worker for `splitlines`: `acc` holds the current line, reversed. -/
def splitlinesAux (acc : List Char) : List Char → List String
  | [] => if acc = [] then [] else [String.mk acc.reverse]
  | '\r' :: '\n' :: rest => String.mk acc.reverse :: splitlinesAux [] rest
  | c :: rest =>
    if isLineBoundary c then String.mk acc.reverse :: splitlinesAux [] rest
    else splitlinesAux (c :: acc) rest

/-- Python `str.splitlines()`: split at line boundaries, no trailing empty
line for a trailing boundary (`"a\n".splitlines() == ["a"]`,
`"".splitlines() == []`). -/
def splitlines (s : String) : List String :=
  splitlinesAux [] s.data

/-- Python slice `l[:-k]` (with `k` a non-negative int literal as in the
script): for `k = 0` this is `l[:0] = []` because `-0 == 0` in Python; for
`k > 0` it keeps all but the last `k` elements. -/
def pySliceNeg (l : List α) (k : Nat) : List α :=
  if k = 0 then [] else l.take (l.length - k)

/-- Python `list.index(x)`, which raises `ValueError` when absent: `none`
models the raised exception. -/
def pyIndex (x : String) : List String → Option Nat
  | [] => none
  | y :: rest => if y = x then some 0 else (pyIndex x rest).map (· + 1)

/-- Worker for `pySplitWhitespace`. -/
def splitWsAux (acc : List Char) : List Char → List String
  | [] => if acc = [] then [] else [String.mk acc.reverse]
  | c :: rest =>
    if c.isWhitespace then
      if acc = [] then splitWsAux [] rest
      else String.mk acc.reverse :: splitWsAux [] rest
    else splitWsAux (c :: acc) rest

/-- Python `str.split()` with no argument: split on runs of whitespace,
discarding empty fields. -/
def pySplitWhitespace (s : String) : List String :=
  splitWsAux [] s.data

/-- POSIX `os.path.basename`: the part after the last `/`. -/
def pyBasename (p : String) : String :=
  String.mk ((p.data.reverse.takeWhile (fun c => c != '/')).reverse)

/-- POSIX `os.path.join` for two components. -/
def pyPathJoin (a b : String) : String :=
  if b.startsWith "/" then b
  else if a = "" || a.endsWith "/" then a ++ b
  else a ++ "/" ++ b

/-- Value of a decimal-digit string, as Python `int()` computes it. -/
def digitsToNat (ds : List Char) : Nat :=
  ds.foldl (fun n c => 10 * n + (c.toNat - 48)) 0

/-! ## Regular-expression model

Only the constructs used by the script's patterns are needed: literal
text, `.*` (any characters except newline), and the start anchor `^`.
`re.search` semantics: the pattern may match starting at any position
(position 0 only, when anchored).  The digit class of `parse_cmp_offset`
is handled separately in `matchByteAt` below. -/

/-- A regex atom: a literal string, or `.*`. -/
inductive RAtom where
  | lit (s : String)
  | dotStar
deriving DecidableEq

/-- A pattern: an optional `^` anchor followed by a sequence of atoms. -/
structure RPat where
  anchored : Bool
  atoms : List RAtom
deriving DecidableEq

/-- Does the atom sequence match a prefix of `cs`?  `.*` may consume any
number of characters other than `\n` (Python `.` without `DOTALL`). -/
def matchSeq : List RAtom → List Char → Bool
  | [], _ => true
  | RAtom.lit s :: rest, cs =>
    s.data.isPrefixOf cs && matchSeq rest (cs.drop s.data.length)
  | RAtom.dotStar :: rest, cs =>
    (List.range (cs.length + 1)).any fun k =>
      (cs.take k).all (fun c => c != '\n') && matchSeq rest (cs.drop k)

/-- Python `re.search(pattern, s)` as a Boolean: does the pattern match at
some position of `s` (at position 0 when anchored with `^`)? -/
def reSearch (p : RPat) (s : String) : Bool :=
  if p.anchored then matchSeq p.atoms s.data
  else (List.range (s.data.length + 1)).any fun i => matchSeq p.atoms (s.data.drop i)

/-! ## The wrapper's comparison functions -/

/-- The script's `SKIP_MATCH` list (lines 79-85): regex patterns that allow
a line pair to be excluded from log comparison.
```
SKIP_MATCH = [
    'BOLT-INFO: BOLT version',
    '^Args: ',
    '^BOLT-DEBUG:',
    'BOLT-INFO:.*data.*output data',
    'WARNING: reading perf data directly',
]
``` -/
def SKIP_MATCH : List RPat :=
  [ ⟨false, [RAtom.lit "BOLT-INFO: BOLT version"]⟩,
    ⟨true,  [RAtom.lit "Args: "]⟩,
    ⟨true,  [RAtom.lit "BOLT-DEBUG:"]⟩,
    ⟨false, [RAtom.lit "BOLT-INFO:", RAtom.dotStar, RAtom.lit "data",
             RAtom.dotStar, RAtom.lit "output data"]⟩,
    ⟨false, [RAtom.lit "WARNING: reading perf data directly"]⟩ ]

/-- The loop body of `compare_logs` over the (already sliced) list of zipped
line pairs:
```
for lhs, rhs in ...:
    if lhs != rhs:
        for skip in SKIP_MATCH:
            if re.search(skip, lhs) and re.search(skip, rhs):
                break
        else:
            return (lhs, rhs)
return None
``` -/
def compareLines : List (String × String) → Option (String × String)
  | [] => none
  | (lhs, rhs) :: rest =>
    if lhs ≠ rhs then
      if SKIP_MATCH.any (fun skip => reSearch skip lhs && reSearch skip rhs) then
        compareLines rest
      else some (lhs, rhs)
    else compareLines rest

/-- `compare_logs(main, cmp, skip_end=0)` (lines 139-154).  The iterated
list is `list(zip(main.splitlines(), cmp.splitlines()))[:-skip_end]`; note
that for `skip_end = 0` the Python slice `[:-0]` is empty (`pySliceNeg`).
The call sites pass `skip_end` explicitly (0 is the Python default). -/
def compare_logs (main cmp : String) (skip_end : Nat) : Option (String × String) :=
  compareLines (pySliceNeg ((splitlines main).zip (splitlines cmp)) skip_end)

/-- `compare_headers(lhs, rhs)` (lines 161-171), with the external
`readelf -We` invocations abstracted away: the two arguments are the texts
`readelf` printed for the two binaries, and the function compares them with
`compare_logs` (Python default `skip_end=0`). -/
def compare_headers (readelf_lhs readelf_rhs : String) : Option (String × String) :=
  compare_logs readelf_lhs readelf_rhs 0

/-- One attempted match of `byte (\d+),` at the start of `cs`: the literal
`byte ` followed by one or more decimal digits followed by `,`.  (Python's
`\d` also accepts non-ASCII decimal digits; `cmp`'s output is ASCII, and the
model uses the ASCII class `Char.isDigit`.) -/
def matchByteAt (cs : List Char) : Option Nat :=
  if ("byte ").data.isPrefixOf cs then
    let after := cs.drop 5
    let ds := after.takeWhile Char.isDigit
    if ds ≠ [] ∧ (after.drop ds.length).head? = some ',' then
      some (digitsToNat ds)
    else none
  else none

/-- Scan of `re.search`: try `matchByteAt` at every position. -/
def findByteNum : List Char → Option Nat
  | [] => none
  | c :: rest =>
    match matchByteAt (c :: rest) with
    | some n => some n
    | none => findByteNum rest

/-- `parse_cmp_offset(cmp_out)` (lines 173-178): extracts `X` from `cmp`
output of the form `file1 file2 differ: byte X, line Y`.  When the pattern
is absent, `re.search` returns `None` and `.groups()[0]` raises
`AttributeError`: modelled by `none`. -/
def parse_cmp_offset (cmp_out : String) : Option Nat :=
  findByteNum cmp_out.data

/-- The inner `get_real_from_stderr` of `report_real_time` (lines 185-186):
`'; '.join(log.splitlines()[-1].split())`.  `[-1]` raises `IndexError` on an
empty list: modelled by `none`. -/
def get_real_from_stderr (log : String) : Option String :=
  ((splitlines log).getLast?).map fun l => String.intercalate "; " (pySplitWhitespace l)

/-- The line `report_real_time` (lines 180-189) appends to the timing file:
`f"{binary}; {main}; {cmp}\n"`.  `none` models the `IndexError` raised when
a stderr text has no lines. -/
def report_real_time (binary main_err cmp_err : String) : Option String :=
  match get_real_from_stderr main_err, get_real_from_stderr cmp_err with
  | some m, some c => some (binary ++ "; " ++ m ++ "; " ++ c ++ "\n")
  | _, _ => none

/-- The file mode `report_real_time` passes to `write_to` (line 189): `'a'`,
append — the timing file is never truncated. -/
def report_real_time_write_mode : String := "a"

/-- `prepend_dash(args)` (lines 102-110): `{'o': 'x'} -> ['-o', 'x']`,
keeping map (= insertion) order. -/
def prepend_dash (args : List (String × String)) : List String :=
  (args.map fun kv => ["-" ++ kv.1, kv.2]).flatten

/-- `preprocess_args(args)` (lines 121-125): drop entries whose value is
falsy (Python `None`, or an empty string). -/
def preprocess_args (parsed : List (String × Option String)) : List (String × String) :=
  parsed.filterMap fun kv =>
    match kv.2 with
    | none => none
    | some v => if v = "" then none else some (kv.1, v)

/-- `replace_cmp_path(tmp, args)` (lines 112-119): keep base names, move the
files into `tmp`, and re-flatten with `prepend_dash`. -/
def replace_cmp_path (tmp : String) (args : List (String × String)) : List String :=
  prepend_dash (args.map fun kv => (kv.1, pyPathJoin tmp (pyBasename kv.2)))

/-! ## The decision pipeline of `main` after both runs are awaited -/

/-- The optional Boolean settings read from `llvm-bolt-wrapper.ini`
(lines 58-63); each defaults to `False` when absent. -/
structure Config where
  verbose : Bool
  keep_tmp : Bool
  no_minimize : Bool
  run_sequentially : Bool
  compare_output : Bool
  skip_binary_cmp : Bool
deriving DecidableEq

/-- A completed subprocess: captured stdout, captured stderr (`/usr/bin/time`
appends an `%e %M` line to it), and the exit code. -/
structure ProcResult where
  out : String
  err : String
  returncode : Int
deriving DecidableEq

/-- The external-world data consumed by the binary-comparison stage of
`main` (lines 235-254): the result of `cmp main_binary cmp_binary`, the
first four bytes of `main_binary` (as natural numbers below 256), and the
stdout of `readelf -We` on each binary. -/
structure BinEnv where
  cmp_returncode : Int
  cmp_stdout : String
  magic : List Nat
  readelf_main : String
  readelf_cmp : String
deriving DecidableEq

/-- The ELF magic `b'\x7fELF'` the script compares against (line 242). -/
def ELF_MAGIC : List Nat := [0x7f, 0x45, 0x4c, 0x46]

/-- How an invocation of `main` can end, once both runs are awaited. -/
inductive Outcome where
  /-- `exit("exitcode or logs mismatch")` (line 226). -/
  | logsMismatch
  /-- `exit("output mismatch")` (line 243). -/
  | outputMismatch
  /-- `exit("headers mismatch")` (line 249), carrying the mismatching
  header-line pair. -/
  | headersMismatch (hdr : String × String)
  /-- `exit("binaries mismatch")` (line 254), after printing the offset. -/
  | binariesMismatch (offset : Nat)
  /-- An uncaught Python exception (exit status 1), tagged with its type. -/
  | pyError (msg : String)
  /-- The success path (lines 256-263): `sys.exit(main_bolt.returncode)`
  after optionally removing the temp dir and re-printing the base run's
  stdout and stderr (each with `print`'s trailing newline). -/
  | success (exitCode : Int) (tmpRemoved : Bool) (emitOut emitErr : String)
deriving DecidableEq

/-- The trace of one `main` invocation past the `wait` calls: the line
appended to the timing file (if any) and the final outcome. -/
structure MainTrace where
  timingLine : Option String
  outcome : Outcome
deriving DecidableEq

/-- The fatal condition of lines 218-219:
`main_bolt.returncode != cmp_bolt.returncode or (COMPARE_OUTPUT and (out or err))`,
where `out = compare_logs(main_out, cmp_out)` and
`err = compare_logs(main_err, cmp_err, skip_end=1)`; a non-`None` tuple is
truthy. -/
def logStageFatalCond (cfg : Config) (mainRes cmpRes : ProcResult) : Bool :=
  mainRes.returncode != cmpRes.returncode ||
    (cfg.compare_output &&
      ((compare_logs mainRes.out cmpRes.out 0).isSome ||
       (compare_logs mainRes.err cmpRes.err 1).isSome))

/-- Lines 216-263 of `main`: the log/exit-code stage, the output-binary
lookups `args[args.index('-o')+1]` and `cmp_args[cmp_args.index('-o')+1]`
(a missing `-o` raises `ValueError`, a trailing `-o` raises `IndexError`),
the timing-file append, and the binary-comparison stage. -/
def mainAfterWait (cfg : Config) (mainRes cmpRes : ProcResult)
    (args cmp_args : List String) (env : BinEnv) : MainTrace :=
  if logStageFatalCond cfg mainRes cmpRes then
    ⟨none, Outcome.logsMismatch⟩
  else
    match pyIndex "-o" args with
    | none => ⟨none, Outcome.pyError "ValueError"⟩
    | some i =>
      match args.get? (i + 1) with
      | none => ⟨none, Outcome.pyError "IndexError"⟩
      | some main_binary =>
        match pyIndex "-o" cmp_args with
        | none => ⟨none, Outcome.pyError "ValueError"⟩
        | some j =>
          match cmp_args.get? (j + 1) with
          | none => ⟨none, Outcome.pyError "IndexError"⟩
          | some _cmp_binary =>
            match report_real_time main_binary mainRes.err cmpRes.err with
            | none => ⟨none, Outcome.pyError "IndexError"⟩
            | some line =>
              let done : MainTrace :=
                ⟨some line,
                 Outcome.success mainRes.returncode (!cfg.keep_tmp)
                   (mainRes.out ++ "\n") (mainRes.err ++ "\n")⟩
              if cfg.skip_binary_cmp then done
              else if env.cmp_returncode != 0 then
                if env.magic ≠ ELF_MAGIC then ⟨some line, Outcome.outputMismatch⟩
                else
                  match compare_headers env.readelf_main env.readelf_cmp with
                  | some hdr => ⟨some line, Outcome.headersMismatch hdr⟩
                  | none =>
                    match parse_cmp_offset env.cmp_stdout with
                    | some off => ⟨some line, Outcome.binariesMismatch off⟩
                    | none => ⟨some line, Outcome.pyError "AttributeError"⟩
              else done

/-- The process exit status of each outcome: `exit(str)` and an uncaught
exception exit with status 1; `sys.exit(rc)` exits with `rc`. -/
def exitStatusOf : Outcome → Int
  | Outcome.success code _ _ _ => code
  | _ => 1

/-- Whether the temporary workspace survives the invocation: `shutil.rmtree`
runs only on the success path, and there only when `keep_tmp` is off. -/
def tmpRetainedOf : Outcome → Bool
  | Outcome.success _ removed _ _ => !removed
  | _ => true

/-! ## Properties of the log comparator -/

/-- If every pair in the examined list is equal or excluded by a common
`SKIP_MATCH` pattern, the loop of `compare_logs` reports no mismatch. -/
theorem compareLines_eq_none (l : List (String × String))
    (h : ∀ pr ∈ l, pr.1 = pr.2 ∨
      ∃ skip ∈ SKIP_MATCH, reSearch skip pr.1 = true ∧ reSearch skip pr.2 = true) :
    compareLines l = none := by
  induction l with
  | nil => rfl
  | cons hd tl ih =>
    obtain ⟨lhs, rhs⟩ := hd
    have hhd := h (lhs, rhs) (List.mem_cons_self _ _)
    have htl : compareLines tl = none := ih fun pr hpr => h pr (List.mem_cons_of_mem _ hpr)
    rw [compareLines]
    by_cases heq : lhs = rhs
    · simp [heq, htl]
    · obtain ⟨skip, hmem, h1, h2⟩ := hhd.resolve_left heq
      have hany : (SKIP_MATCH.any fun skip => reSearch skip lhs && reSearch skip rhs) = true :=
        List.any_eq_true.mpr ⟨skip, hmem, by simp [h1, h2]⟩
      simp [heq, hany, htl]

/-- Any pair the loop of `compare_logs` returns is a member of the examined
list, genuinely differs, and is matched on both sides by no pattern. -/
theorem compareLines_some (l : List (String × String)) (lhs rhs : String)
    (h : compareLines l = some (lhs, rhs)) :
    (lhs, rhs) ∈ l ∧ lhs ≠ rhs ∧
      ∀ skip ∈ SKIP_MATCH, ¬(reSearch skip lhs = true ∧ reSearch skip rhs = true) := by
  induction l with
  | nil => simp [compareLines] at h
  | cons hd tl ih =>
    obtain ⟨a, b⟩ := hd
    rw [compareLines] at h
    by_cases heq : a = b
    · simp only [heq, ne_eq, not_true_eq_false, if_neg, ite_false] at h
      have := ih h
      exact ⟨List.mem_cons_of_mem _ this.1, this.2⟩
    · simp only [ne_eq, heq, not_false_eq_true, if_pos, ite_true] at h
      by_cases hany : (SKIP_MATCH.any fun skip => reSearch skip a && reSearch skip b) = true
      · rw [if_pos hany] at h
        have := ih h
        exact ⟨List.mem_cons_of_mem _ this.1, this.2⟩
      · rw [if_neg hany] at h
        obtain ⟨rfl, rfl⟩ := Prod.mk.injEq .. ▸ Option.some.injEq .. ▸ h
        refine ⟨List.mem_cons_self _ _, heq, fun skip hskip hboth => hany ?_⟩
        exact List.any_eq_true.mpr ⟨skip, hskip, by simp [hboth.1, hboth.2]⟩

/-- A genuinely mismatching, untolerated pair in the examined list forces the
loop of `compare_logs` to report some mismatch. -/
theorem compareLines_isSome (l : List (String × String)) (lhs rhs : String)
    (hmem : (lhs, rhs) ∈ l) (hne : lhs ≠ rhs)
    (hpat : ∀ skip ∈ SKIP_MATCH, ¬(reSearch skip lhs = true ∧ reSearch skip rhs = true)) :
    (compareLines l).isSome = true := by
  induction l with
  | nil => simp at hmem
  | cons hd tl ih =>
    obtain ⟨a, b⟩ := hd
    rw [compareLines]
    rcases List.mem_cons.mp hmem with hhd | htl
    · obtain ⟨rfl, rfl⟩ := Prod.mk.injEq .. ▸ hhd
      have hany : ¬(SKIP_MATCH.any fun skip => reSearch skip lhs && reSearch skip rhs) = true := by
        intro hany
        obtain ⟨skip, hskip, hb⟩ := List.any_eq_true.mp hany
        exact hpat skip hskip ⟨(Bool.and_eq_true .. ▸ hb).1, (Bool.and_eq_true .. ▸ hb).2⟩
      simp only [ne_eq, hne, not_false_eq_true, if_pos, ite_true, hany, if_neg, ite_false]
      rfl
    · by_cases heq : a = b
      · simpa [heq] using ih htl
      · by_cases hany : (SKIP_MATCH.any fun skip => reSearch skip a && reSearch skip b) = true
        · simpa [heq, hany] using ih htl
        · simp [heq, hany]

/-- Zipping a list with an extension of itself pairs each element with
itself. -/
theorem zip_pair_eq_left {α : Type} {l1 l2 : List α} (h : l1 <+: l2) :
    ∀ pr ∈ l1.zip l2, pr.1 = pr.2 := by
  induction l1 generalizing l2 with
  | nil => intro pr hpr; simp at hpr
  | cons a t ih =>
    intro pr hpr
    cases l2 with
    | nil => simp at hpr
    | cons b t2 =>
      obtain ⟨rfl, ht⟩ := List.cons_prefix_cons.mp h
      rcases List.mem_cons.mp (by simpa using hpr) with rfl | hmem
      · rfl
      · exact ih ht pr hmem

/-- Symmetric version of `zip_pair_eq_left`, for the second list a prefix of
the first. -/
theorem zip_pair_eq_right {α : Type} {l1 l2 : List α} (h : l2 <+: l1) :
    ∀ pr ∈ l1.zip l2, pr.1 = pr.2 := by
  induction l2 generalizing l1 with
  | nil => intro pr hpr; simp at hpr
  | cons a t ih =>
    intro pr hpr
    cases l1 with
    | nil => simp at hpr
    | cons b t2 =>
      obtain ⟨rfl, ht⟩ := List.cons_prefix_cons.mp h
      rcases List.mem_cons.mp (by simpa using hpr) with rfl | hmem
      · rfl
      · exact ih ht pr hmem

/-- Everything `compare_logs` examines is a zipped pair of lines. -/
theorem mem_of_mem_pySliceNeg {α : Type} {l : List α} {k : Nat} {x : α}
    (h : x ∈ pySliceNeg l k) : x ∈ l := by
  unfold pySliceNeg at h
  split at h
  · simp at h
  · exact List.take_subset _ _ h

/-- C1: the claim states that with `skipTrailingLines = 0` (the configuration
used for the standard-output comparison at line 216) `compare_logs` drops no
trailing lines and positionally compares every corresponding line pair up to
the shorter text's line count.  In fact the iterated list is
`list(zip(...))[:-skip_end]`, and for `skip_end = 0` the Python slice `[:-0]`
is `[:0]`, i.e. empty: NO line pair is ever compared, and `compare_logs`
returns `None` for every pair of texts — including texts whose very first
lines differ and match no noise pattern. -/
theorem C1_compare_logs_skip_end_zero_compares_nothing (main cmp : String) :
    compare_logs main cmp 0 = none := rfl

/-- C2: among the line pairs `compare_logs` examines, a positionally
mismatching pair is tolerated if and only if some single `SKIP_MATCH` pattern
matches both lines: (a) any returned pair genuinely differs and has no
pattern matching both sides; (b) if every examined mismatching pair has a
common matching pattern, the comparison reports a match; (c) an examined
mismatching pair with no common matching pattern forces a reported
mismatch. -/
theorem C2_mismatch_tolerated_iff_common_pattern (main cmp : String) (skip_end : Nat) :
    (∀ lhs rhs, compare_logs main cmp skip_end = some (lhs, rhs) →
        lhs ≠ rhs ∧
          ∀ skip ∈ SKIP_MATCH, ¬(reSearch skip lhs = true ∧ reSearch skip rhs = true)) ∧
    ((∀ pr ∈ pySliceNeg ((splitlines main).zip (splitlines cmp)) skip_end,
        pr.1 = pr.2 ∨
          ∃ skip ∈ SKIP_MATCH, reSearch skip pr.1 = true ∧ reSearch skip pr.2 = true) →
      compare_logs main cmp skip_end = none) ∧
    (∀ lhs rhs, (lhs, rhs) ∈ pySliceNeg ((splitlines main).zip (splitlines cmp)) skip_end →
        lhs ≠ rhs →
        (∀ skip ∈ SKIP_MATCH, ¬(reSearch skip lhs = true ∧ reSearch skip rhs = true)) →
        (compare_logs main cmp skip_end).isSome = true) := by
  refine ⟨fun lhs rhs h => ?_, fun h => compareLines_eq_none _ h,
    fun lhs rhs hmem hne hpat => compareLines_isSome _ lhs rhs hmem hne hpat⟩
  exact (compareLines_some _ lhs rhs h).2

/-- Witness for C2 at concrete inputs: two logs whose first lines differ but
both match the `^BOLT-DEBUG:` pattern (and whose second lines agree) compare
as equal; the third lines fall inside the `skip_end = 1` suffix. -/
theorem C2_witness :
    compare_logs "BOLT-DEBUG: x\nsame\nt1" "BOLT-DEBUG: y\nsame\nt2" 1 = none :=
  (C2_mismatch_tolerated_iff_common_pattern "BOLT-DEBUG: x\nsame\nt1"
    "BOLT-DEBUG: y\nsame\nt2" 1).2.1 (by decide)

/-- C9: line pairs beyond the length of the shorter text are never compared:
whenever one text's line list is a prefix of the other's, every zipped pair
is equal, so `compare_logs` reports no mismatch for any `skip_end`. -/
theorem C9_extension_produces_no_mismatch (main cmp : String) (skip_end : Nat)
    (h : splitlines main <+: splitlines cmp ∨ splitlines cmp <+: splitlines main) :
    compare_logs main cmp skip_end = none := by
  apply compareLines_eq_none
  intro pr hpr
  left
  have hmem : pr ∈ (splitlines main).zip (splitlines cmp) := mem_of_mem_pySliceNeg hpr
  cases h with
  | inl h => exact zip_pair_eq_left h pr hmem
  | inr h => exact zip_pair_eq_right h pr hmem

/-- Witness for C9 at a concrete input: `"a\nb"` is a line-wise prefix of
`"a\nb\nc"`, and the comparison (here with `skip_end = 1`, so that line pairs
are actually examined) reports no mismatch. -/
theorem C9_witness :
    (splitlines "a\nb" <+: splitlines "a\nb\nc" ∨
      splitlines "a\nb\nc" <+: splitlines "a\nb") ∧
    compare_logs "a\nb" "a\nb\nc" 1 = none :=
  ⟨Or.inl (by decide), C9_extension_produces_no_mismatch "a\nb" "a\nb\nc" 1 (Or.inl (by decide))⟩

/-! ## Properties of `parse_cmp_offset` -/

/-- The pattern `byte (\d+),` occurs in `s`: some position is followed by the
literal `byte `, then one or more decimal digits, then a comma. -/
def hasBytePattern (s : String) : Prop :=
  ∃ pre ds post, s.data = pre ++ ("byte ").data ++ ds ++ ',' :: post ∧
    ds ≠ [] ∧ ∀ c ∈ ds, c.isDigit = true

/-- `takeWhile` of a satisfying block followed by a failing element returns
exactly the block. -/
theorem takeWhile_block {p : Char → Bool} {ds post : List Char} {x : Char}
    (h : ∀ c ∈ ds, p c = true) (hx : p x = false) :
    (ds ++ x :: post).takeWhile p = ds := by
  induction ds with
  | nil => simp [List.takeWhile_cons, hx]
  | cons a t ih =>
    rw [List.cons_append, List.takeWhile_cons]
    simp only [h a (List.mem_cons_self _ _), if_true]
    rw [ih fun c hc => h c (List.mem_cons_of_mem _ hc)]

/-- Dropping as many elements as `takeWhile` keeps yields `dropWhile`. -/
theorem drop_length_takeWhile {α : Type} {p : α → Bool} (l : List α) :
    l.drop (l.takeWhile p).length = l.dropWhile p := by
  induction l with
  | nil => rfl
  | cons a t ih =>
    rw [List.takeWhile_cons, List.dropWhile_cons]
    by_cases h : p a = true
    · simp [h, ih]
    · simp [h]

/-- A successful `matchByteAt` yields a decomposition: `byte `, a nonempty
digit block valued `n`, then a comma. -/
theorem matchByteAt_some {cs : List Char} {n : Nat} (h : matchByteAt cs = some n) :
    ∃ ds post, cs = ("byte ").data ++ ds ++ ',' :: post ∧ ds ≠ [] ∧
      (∀ c ∈ ds, c.isDigit = true) ∧ digitsToNat ds = n := by
  unfold matchByteAt at h
  by_cases hpre : ("byte ").data.isPrefixOf cs = true
  · rw [if_pos hpre] at h
    simp only [] at h
    obtain ⟨t, ht⟩ := List.isPrefixOf_iff_prefix.mp hpre
    have h5 : ("byte ").data.length = 5 := rfl
    have hdrop5 : cs.drop 5 = t := by rw [← ht, ← h5, List.drop_left]
    rw [hdrop5] at h
    by_cases hc : t.takeWhile Char.isDigit ≠ [] ∧
        (t.drop (t.takeWhile Char.isDigit).length).head? = some ','
    · rw [if_pos hc] at h
      obtain ⟨hds, hhead⟩ := hc
      have hsplit : t.takeWhile Char.isDigit ++ t.dropWhile Char.isDigit = t :=
        List.takeWhile_append_dropWhile _ _
      have hdrop : t.drop (t.takeWhile Char.isDigit).length = t.dropWhile Char.isDigit :=
        drop_length_takeWhile t
      rw [hdrop] at hhead
      cases hdw : t.dropWhile Char.isDigit with
      | nil => rw [hdw] at hhead; simp at hhead
      | cons c post =>
        rw [hdw] at hhead
        have hcc : c = ',' := by simpa using hhead
        have ht2 : t = t.takeWhile Char.isDigit ++ ',' :: post := by
          conv_lhs => rw [← hsplit, hdw, hcc]
        refine ⟨t.takeWhile Char.isDigit, post, ?_, hds,
          fun c hc => List.mem_takeWhile_imp hc, by injection h⟩
        rw [← ht]
        conv_lhs => rw [ht2]
        exact (List.append_assoc _ _ _).symm
    · rw [if_neg hc] at h; cases h
  · rw [if_neg hpre] at h; cases h

/-- `matchByteAt` succeeds on any text that starts with `byte `, a nonempty
digit block, and a comma. -/
theorem matchByteAt_decomp {ds post : List Char} (hds : ds ≠ [])
    (hdig : ∀ c ∈ ds, c.isDigit = true) :
    matchByteAt (("byte ").data ++ ds ++ ',' :: post) = some (digitsToNat ds) := by
  unfold matchByteAt
  rw [List.append_assoc]
  have hpre : ("byte ").data.isPrefixOf (("byte ").data ++ (ds ++ ',' :: post)) = true :=
    List.isPrefixOf_iff_prefix.mpr ⟨_, rfl⟩
  rw [if_pos hpre]
  simp only []
  have h5 : ("byte ").data.length = 5 := rfl
  have hdrop5 : (("byte ").data ++ (ds ++ ',' :: post)).drop 5 = ds ++ ',' :: post := by
    rw [← h5, List.drop_left]
  rw [hdrop5]
  have htw : (ds ++ ',' :: post).takeWhile Char.isDigit = ds :=
    takeWhile_block hdig (by decide)
  rw [htw]
  have hdl : (ds ++ ',' :: post).drop ds.length = ',' :: post := List.drop_left _ _
  rw [hdl]
  rw [if_pos ⟨hds, rfl⟩]

/-- Unfolding equation of `findByteNum` at a cons cell. -/
theorem findByteNum_cons (c : Char) (rest : List Char) :
    findByteNum (c :: rest) =
      match matchByteAt (c :: rest) with
      | some n => some n
      | none => findByteNum rest := rfl

/-- A successful scan yields a decomposition of the whole text around an
occurrence of the pattern, whose digit block is valued `n`. -/
theorem findByteNum_some {cs : List Char} {n : Nat} (h : findByteNum cs = some n) :
    ∃ pre ds post, cs = pre ++ ("byte ").data ++ ds ++ ',' :: post ∧ ds ≠ [] ∧
      (∀ c ∈ ds, c.isDigit = true) ∧ digitsToNat ds = n := by
  induction cs with
  | nil => simp [findByteNum] at h
  | cons c rest ih =>
    rw [findByteNum_cons] at h
    split at h
    · rename_i m hm
      obtain ⟨ds, post, hcs, hne, hdig, hval⟩ := matchByteAt_some hm
      injection h with h2
      exact ⟨[], ds, post, by simpa using hcs, hne, hdig, h2 ▸ hval⟩
    · rename_i hm
      obtain ⟨pre, ds, post, hcs, hne, hdig, hval⟩ := ih h
      refine ⟨c :: pre, ds, post, ?_, hne, hdig, hval⟩
      simp [hcs, List.append_assoc]

/-- The scan succeeds on any text containing the pattern. -/
theorem findByteNum_isSome {pre ds post : List Char} (hds : ds ≠ [])
    (hdig : ∀ c ∈ ds, c.isDigit = true) :
    (findByteNum (pre ++ (("byte ").data ++ ds ++ ',' :: post))).isSome = true := by
  induction pre with
  | nil =>
    rw [List.nil_append]
    have hform : ("byte ").data ++ ds ++ ',' :: post =
        'b' :: (("yte ").data ++ ds ++ ',' :: post) := rfl
    rw [hform, findByteNum_cons]
    simp only [show matchByteAt ('b' :: (("yte ").data ++ ds ++ ',' :: post)) =
      some (digitsToNat ds) from matchByteAt_decomp hds hdig]
    rfl
  | cons c pre ih =>
    rw [List.cons_append, findByteNum_cons]
    split
    · rfl
    · exact ih

/-- C10: `parse_cmp_offset` raises (returns `none`) exactly on inputs that
lack a `byte N,` occurrence — e.g. the empty string `cmp` prints when one
file is a strict prefix of the other — and when it returns a value, that
value is the number written in some `byte N,` occurrence of the input. -/
theorem C10_parse_cmp_offset_pattern (s : String) :
    (parse_cmp_offset s = none ↔ ¬ hasBytePattern s) ∧
    (∀ n, parse_cmp_offset s = some n →
      ∃ pre ds post, s.data = pre ++ ("byte ").data ++ ds ++ ',' :: post ∧
        ds ≠ [] ∧ (∀ c ∈ ds, c.isDigit = true) ∧ digitsToNat ds = n) := by
  constructor
  · constructor
    · intro hnone hpat
      obtain ⟨pre, ds, post, hcs, hne, hdig⟩ := hpat
      have hsome : (findByteNum (pre ++ (("byte ").data ++ ds ++ ',' :: post))).isSome = true :=
        findByteNum_isSome hne hdig
      rw [show pre ++ (("byte ").data ++ ds ++ ',' :: post) =
            pre ++ ("byte ").data ++ ds ++ ',' :: post by simp [List.append_assoc],
          ← hcs] at hsome
      rw [parse_cmp_offset] at hnone
      rw [hnone] at hsome
      cases hsome
    · intro hno
      cases hval : parse_cmp_offset s with
      | none => rfl
      | some n =>
        obtain ⟨pre, ds, post, hcs, hne, hdig, _⟩ := findByteNum_some hval
        exact absurd ⟨pre, ds, post, hcs, hne, hdig⟩ hno
  · intro n h
    exact findByteNum_some h

/-- Witness for C10 at a concrete input: on `cmp`'s usual message the parsed
offset 25 is the number of an actual `byte 25,` occurrence. -/
theorem C10_witness :
    ∃ pre ds post, ("f1 f2 differ: byte 25, line 3").data =
        pre ++ ("byte ").data ++ ds ++ ',' :: post ∧
      ds ≠ [] ∧ (∀ c ∈ ds, c.isDigit = true) ∧ digitsToNat ds = 25 :=
  (C10_parse_cmp_offset_pattern "f1 f2 differ: byte 25, line 3").2 25 (by decide)

/-! ## Properties of the run coordinator -/

/-- When the exit-code/log condition fires, `main` stops at
`exit("exitcode or logs mismatch")`: no timing record is written. -/
theorem mainAfterWait_fatal (cfg : Config) (mainRes cmpRes : ProcResult)
    (args cmp_args : List String) (env : BinEnv)
    (h : logStageFatalCond cfg mainRes cmpRes = true) :
    mainAfterWait cfg mainRes cmpRes args cmp_args env = ⟨none, Outcome.logsMismatch⟩ := by
  unfold mainAfterWait
  rw [if_pos h]

/-- When the exit-code/log condition does not fire, `main` never takes the
`exit("exitcode or logs mismatch")` path. -/
theorem mainAfterWait_not_logsMismatch (cfg : Config) (mainRes cmpRes : ProcResult)
    (args cmp_args : List String) (env : BinEnv)
    (h : logStageFatalCond cfg mainRes cmpRes = false) :
    (mainAfterWait cfg mainRes cmpRes args cmp_args env).outcome ≠ Outcome.logsMismatch := by
  unfold mainAfterWait
  rw [if_neg (by simp [h])]
  repeat' split
  all_goals simp

/-- C3: after both runs are awaited, the wrapper takes the fatal
`exit("exitcode or logs mismatch")` path — non-zero exit status, temporary
workspace retained, no timing record — exactly when the two exit codes
differ, or content comparison (`compare_output`) is enabled and the stdout
comparison or the last-line-skipping stderr comparison reports a mismatch.
Exit-code inequality is therefore fatal regardless of `compare_output`,
while log mismatches are fatal only when `compare_output` is set. -/
theorem C3_log_stage_fatal_iff (cfg : Config) (mainRes cmpRes : ProcResult)
    (args cmp_args : List String) (env : BinEnv) :
    ((mainAfterWait cfg mainRes cmpRes args cmp_args env).outcome = Outcome.logsMismatch ↔
      (mainRes.returncode ≠ cmpRes.returncode ∨
        (cfg.compare_output = true ∧
          ((compare_logs mainRes.out cmpRes.out 0).isSome = true ∨
           (compare_logs mainRes.err cmpRes.err 1).isSome = true)))) ∧
    ((mainAfterWait cfg mainRes cmpRes args cmp_args env).outcome = Outcome.logsMismatch →
      exitStatusOf (mainAfterWait cfg mainRes cmpRes args cmp_args env).outcome = 1 ∧
      tmpRetainedOf (mainAfterWait cfg mainRes cmpRes args cmp_args env).outcome = true ∧
      (mainAfterWait cfg mainRes cmpRes args cmp_args env).timingLine = none) := by
  have hcond : logStageFatalCond cfg mainRes cmpRes = true ↔
      (mainRes.returncode ≠ cmpRes.returncode ∨
        (cfg.compare_output = true ∧
          ((compare_logs mainRes.out cmpRes.out 0).isSome = true ∨
           (compare_logs mainRes.err cmpRes.err 1).isSome = true))) := by
    unfold logStageFatalCond
    simp [Bool.or_eq_true, Bool.and_eq_true, bne_iff_ne]
  cases hfc : logStageFatalCond cfg mainRes cmpRes with
  | true =>
    have heq := mainAfterWait_fatal cfg mainRes cmpRes args cmp_args env hfc
    rw [heq]
    exact ⟨iff_of_true rfl (hcond.mp hfc), fun _ => ⟨rfl, rfl, rfl⟩⟩
  | false =>
    have hne := mainAfterWait_not_logsMismatch cfg mainRes cmpRes args cmp_args env hfc
    refine ⟨⟨fun h => absurd h hne, fun h => absurd (hcond.mpr h) (by simp [hfc])⟩,
      fun h => absurd h hne⟩

/-- Witness for C3 at a concrete input: exit codes 0 and 2 differ while all
comparison flags are off, so the invocation is fatal, exits non-zero,
retains the workspace, and appends no timing line. -/
theorem C3_witness :
    exitStatusOf (mainAfterWait ⟨false, false, false, false, false, false⟩
        ⟨"", "0 1", 0⟩ ⟨"", "0 1", 2⟩ [] [] ⟨0, "", [], "", ""⟩).outcome = 1 ∧
    tmpRetainedOf (mainAfterWait ⟨false, false, false, false, false, false⟩
        ⟨"", "0 1", 0⟩ ⟨"", "0 1", 2⟩ [] [] ⟨0, "", [], "", ""⟩).outcome = true ∧
    (mainAfterWait ⟨false, false, false, false, false, false⟩
        ⟨"", "0 1", 0⟩ ⟨"", "0 1", 2⟩ [] [] ⟨0, "", [], "", ""⟩).timingLine = none :=
  (C3_log_stage_fatal_iff ⟨false, false, false, false, false, false⟩
      ⟨"", "0 1", 0⟩ ⟨"", "0 1", 2⟩ [] [] ⟨0, "", [], "", ""⟩).2
    ((C3_log_stage_fatal_iff ⟨false, false, false, false, false, false⟩
        ⟨"", "0 1", 0⟩ ⟨"", "0 1", 2⟩ [] [] ⟨0, "", [], "", ""⟩).1.mpr
      (Or.inl (by decide)))

/-- C7: when the log stage passes, binary comparison is enabled, the output
files differ byte-wise (`cmp` exits non-zero), and the primary output's
first four bytes are not the ELF magic, the invocation stops at
`exit("output mismatch")` — no header comparison outcome and no byte-offset
outcome is produced. -/
theorem C7_non_elf_output_mismatch (cfg : Config) (mainRes cmpRes : ProcResult)
    (args cmp_args : List String) (env : BinEnv) (i j : Nat) (b cb line : String)
    (hfatal : logStageFatalCond cfg mainRes cmpRes = false)
    (hi : pyIndex "-o" args = some i) (hb : args.get? (i + 1) = some b)
    (hj : pyIndex "-o" cmp_args = some j) (hcb : cmp_args.get? (j + 1) = some cb)
    (hline : report_real_time b mainRes.err cmpRes.err = some line)
    (hskip : cfg.skip_binary_cmp = false)
    (hrc : env.cmp_returncode ≠ 0)
    (hmagic : env.magic ≠ ELF_MAGIC) :
    mainAfterWait cfg mainRes cmpRes args cmp_args env = ⟨some line, Outcome.outputMismatch⟩ := by
  unfold mainAfterWait
  rw [if_neg (by simp [hfatal])]
  simp only [hi, hb, hj, hcb, hline, hskip]
  rw [if_neg (by simp), if_pos (by simpa [bne_iff_ne] using hrc), if_pos hmagic]

/-- Witness for C7 at a concrete input: byte-differing outputs whose primary
file starts with `#!/b` instead of the ELF magic. -/
theorem C7_witness :
    mainAfterWait ⟨false, false, false, false, false, false⟩
      ⟨"", "0.1 2", 0⟩ ⟨"", "0.2 3", 0⟩ ["-o", "out"] ["-o", "/t/out"]
      ⟨1, "out /t/out differ: byte 1, line 1", [0x23, 0x21, 0x2f, 0x62], "H", "H"⟩ =
    ⟨some "out; 0.1; 2; 0.2; 3\n", Outcome.outputMismatch⟩ :=
  C7_non_elf_output_mismatch ⟨false, false, false, false, false, false⟩
    ⟨"", "0.1 2", 0⟩ ⟨"", "0.2 3", 0⟩ ["-o", "out"] ["-o", "/t/out"]
    ⟨1, "out /t/out differ: byte 1, line 1", [0x23, 0x21, 0x2f, 0x62], "H", "H"⟩
    0 0 "out" "/t/out" "out; 0.1; 2; 0.2; 3\n"
    (by decide) (by decide) (by decide) (by decide) (by decide) (by decide) rfl
    (by decide) (by decide)

/-- C8: on terminal success — the log stage passed and binary comparison is
skipped by configuration or found the outputs byte-identical — the temporary
workspace is removed exactly when `keep_tmp` is off, the base run's captured
stdout and stderr are re-emitted (each with `print`'s trailing newline) to
the wrapper's stdout and stderr respectively, and the wrapper exits with the
base run's own exit code, not a fixed 0. -/
theorem C8_success_transparent (cfg : Config) (mainRes cmpRes : ProcResult)
    (args cmp_args : List String) (env : BinEnv) (i j : Nat) (b cb line : String)
    (hfatal : logStageFatalCond cfg mainRes cmpRes = false)
    (hi : pyIndex "-o" args = some i) (hb : args.get? (i + 1) = some b)
    (hj : pyIndex "-o" cmp_args = some j) (hcb : cmp_args.get? (j + 1) = some cb)
    (hline : report_real_time b mainRes.err cmpRes.err = some line)
    (hnocmp : cfg.skip_binary_cmp = true ∨ env.cmp_returncode = 0) :
    mainAfterWait cfg mainRes cmpRes args cmp_args env =
      ⟨some line, Outcome.success mainRes.returncode (!cfg.keep_tmp)
        (mainRes.out ++ "\n") (mainRes.err ++ "\n")⟩ ∧
    exitStatusOf (Outcome.success mainRes.returncode (!cfg.keep_tmp)
        (mainRes.out ++ "\n") (mainRes.err ++ "\n")) = mainRes.returncode ∧
    tmpRetainedOf (Outcome.success mainRes.returncode (!cfg.keep_tmp)
        (mainRes.out ++ "\n") (mainRes.err ++ "\n")) = cfg.keep_tmp := by
  refine ⟨?_, rfl, by simp [tmpRetainedOf]⟩
  unfold mainAfterWait
  rw [if_neg (by simp [hfatal])]
  simp only [hi, hb, hj, hcb, hline]
  rcases hnocmp with hsb | hrc0
  · simp [hsb]
  · cases hsb : cfg.skip_binary_cmp with
    | true => simp [hsb]
    | false => simp [hsb, hrc0]

/-- Witness for C8 at a concrete input: both runs exited with code 5, binary
comparison is skipped, `keep_tmp` is off — the wrapper removes the
workspace, re-emits the base run's streams, and exits 5 (not 0). -/
theorem C8_witness :
    mainAfterWait ⟨false, false, false, false, false, true⟩
        ⟨"hello", "1 2", 5⟩ ⟨"other", "3 4", 5⟩ ["-o", "out"] ["-o", "/t/out"]
        ⟨0, "", [], "", ""⟩ =
      ⟨some "out; 1; 2; 3; 4\n", Outcome.success 5 true "hello\n" "1 2\n"⟩ ∧
    exitStatusOf (Outcome.success 5 true "hello\n" "1 2\n") = 5 ∧
    tmpRetainedOf (Outcome.success 5 true "hello\n" "1 2\n") = false :=
  C8_success_transparent ⟨false, false, false, false, false, true⟩
    ⟨"hello", "1 2", 5⟩ ⟨"other", "3 4", 5⟩ ["-o", "out"] ["-o", "/t/out"]
    ⟨0, "", [], "", ""⟩ 0 0 "out" "/t/out" "out; 1; 2; 3; 4\n"
    (by decide) (by decide) (by decide) (by decide) (by decide) rfl (Or.inl rfl)

/-- C4: the claim fails on the code. `compare_headers` compares the two
`readelf` dumps through `compare_logs` with the Python-default
`skip_end = 0`, whose slice `[:-0]` is empty, so it returns `None` for ALL
pairs of header dumps: a differing header line can never produce the
`headers mismatch` report. A byte-differing pair of ELF outputs always
proceeds to the raw-offset `binaries mismatch` report instead — here offset
7 is reported even though the header dumps (`Header A` vs `Header B`)
differ. -/
theorem C4_headers_mismatch_unreachable :
    (∀ readelf_lhs readelf_rhs, compare_headers readelf_lhs readelf_rhs = none) ∧
    mainAfterWait ⟨false, false, false, false, false, false⟩
        ⟨"", "0.1 2", 0⟩ ⟨"", "0.2 3", 0⟩ ["-o", "out"] ["-o", "/t/out"]
        ⟨1, "out /t/out differ: byte 7, line 1", ELF_MAGIC, "Header A", "Header B"⟩ =
      ⟨some "out; 0.1; 2; 0.2; 3\n", Outcome.binariesMismatch 7⟩ :=
  ⟨fun _ _ => rfl, by decide⟩

/-- C5 counterexample: the elapsed-seconds and peak-memory tokens of each
run are joined with `'; '.join(...)`, not kept space-separated: for last
stderr lines `1.23 456` and `7.8 90` the appended record is
`out; 1.23; 456; 7.8; 90\n`, not `out; 1.23 456; 7.8 90\n` as the claim's
space-separated format requires. -/
theorem C5_counterexample :
    report_real_time "out" "1.23 456" "7.8 90" = some "out; 1.23; 456; 7.8; 90\n" ∧
    report_real_time "out" "1.23 456" "7.8 90" ≠ some "out; 1.23 456; 7.8 90\n" :=
  ⟨rfl, by decide⟩

/-- C5 (amended): once the log stage passes and the output-binary lookups
succeed, exactly one record is appended to the timing file — in append mode
`'a'`, so the file is never truncated — of the form
`binary; t_base; mem_base; t_cmp; mem_cmp`: the two whitespace-separated
tokens of each run's last stderr line are joined with `'; '`
(semicolon-space), not with a space. -/
theorem C5_timing_record (cfg : Config) (mainRes cmpRes : ProcResult)
    (args cmp_args : List String) (env : BinEnv) (i j : Nat)
    (b cb L1 L2 t1 m1 t2 m2 : String)
    (hfatal : logStageFatalCond cfg mainRes cmpRes = false)
    (hi : pyIndex "-o" args = some i) (hb : args.get? (i + 1) = some b)
    (hj : pyIndex "-o" cmp_args = some j) (hcb : cmp_args.get? (j + 1) = some cb)
    (hl1 : (splitlines mainRes.err).getLast? = some L1)
    (hs1 : pySplitWhitespace L1 = [t1, m1])
    (hl2 : (splitlines cmpRes.err).getLast? = some L2)
    (hs2 : pySplitWhitespace L2 = [t2, m2]) :
    (mainAfterWait cfg mainRes cmpRes args cmp_args env).timingLine =
      some (b ++ "; " ++ (t1 ++ "; " ++ m1) ++ "; " ++ (t2 ++ "; " ++ m2) ++ "\n") ∧
    report_real_time_write_mode = "a" := by
  have hline : report_real_time b mainRes.err cmpRes.err =
      some (b ++ "; " ++ (t1 ++ "; " ++ m1) ++ "; " ++ (t2 ++ "; " ++ m2) ++ "\n") := by
    unfold report_real_time get_real_from_stderr
    rw [hl1, hl2]
    simp only [Option.map_some']
    rw [hs1, hs2]
    rfl
  refine ⟨?_, rfl⟩
  unfold mainAfterWait
  rw [if_neg (by simp [hfatal])]
  simp only [hi, hb, hj, hcb, hline]
  repeat' split
  all_goals rfl

/-- Witness for C5 at a concrete input: stderrs `x\n1.23 456` and
`y\n7.8 90` (the timing tokens on the last line) produce the record
`out; 1.23; 456; 7.8; 90\n`. -/
theorem C5_witness :
    (mainAfterWait ⟨false, false, false, false, false, true⟩
        ⟨"", "x\n1.23 456", 0⟩ ⟨"", "y\n7.8 90", 0⟩ ["-o", "out"] ["-o", "/t/out"]
        ⟨0, "", [], "", ""⟩).timingLine =
      some ("out" ++ "; " ++ ("1.23" ++ "; " ++ "456") ++ "; " ++ ("7.8" ++ "; " ++ "90") ++ "\n") ∧
    report_real_time_write_mode = "a" :=
  C5_timing_record ⟨false, false, false, false, false, true⟩
    ⟨"", "x\n1.23 456", 0⟩ ⟨"", "y\n7.8 90", 0⟩ ["-o", "out"] ["-o", "/t/out"]
    ⟨0, "", [], "", ""⟩ 0 0 "out" "/t/out" "1.23 456" "7.8 90" "1.23" "456" "7.8" "90"
    (by decide) (by decide) (by decide) (by decide) (by decide)
    (by decide) (by decide) (by decide) (by decide)

/-- C6 counterexample: base and comparison runs both produce empty stdout
and exit code 0 (their stderr is just the injected timing line), and no
output-binary flag is supplied.  The claim's expected result — full match,
exit 0, timing line appended — does not happen: the reconstructed output
argument list is empty, `args.index('-o')` raises an uncaught `ValueError`,
the wrapper exits with status 1, and no timing line is appended. -/
theorem C6_counterexample :
    mainAfterWait ⟨false, false, false, false, false, false⟩
        ⟨"", "0.00 100", 0⟩ ⟨"", "0.01 200", 0⟩
        (prepend_dash (preprocess_args [("o", none), ("w", none)]))
        (replace_cmp_path "/tmp/wrapper" (preprocess_args [("o", none), ("w", none)]))
        ⟨0, "", [], "", ""⟩ =
      ⟨none, Outcome.pyError "ValueError"⟩ ∧
    exitStatusOf (Outcome.pyError "ValueError") = 1 :=
  ⟨by decide, rfl⟩

/-- C6 (amended): for an invocation whose runs agree (the log stage passes)
but whose argument list contains no `-o` flag — as happens when no
output-binary flag is supplied, since `preprocess_args` drops the unset
options — the wrapper raises an uncaught `ValueError` at `args.index('-o')`:
no timing line is appended and the exit status is 1, not the base run's
success status. -/
theorem C6_no_output_flag_raises (cfg : Config) (mainRes cmpRes : ProcResult)
    (args cmp_args : List String) (env : BinEnv)
    (hfatal : logStageFatalCond cfg mainRes cmpRes = false)
    (hidx : pyIndex "-o" args = none) :
    mainAfterWait cfg mainRes cmpRes args cmp_args env =
      ⟨none, Outcome.pyError "ValueError"⟩ ∧
    (mainAfterWait cfg mainRes cmpRes args cmp_args env).timingLine = none ∧
    exitStatusOf (mainAfterWait cfg mainRes cmpRes args cmp_args env).outcome = 1 := by
  have h : mainAfterWait cfg mainRes cmpRes args cmp_args env =
      ⟨none, Outcome.pyError "ValueError"⟩ := by
    unfold mainAfterWait
    rw [if_neg (by simp [hfatal])]
    simp only [hidx]
  exact ⟨h, by rw [h], by rw [h]; rfl⟩

/-- Witness for the amended C6 at a concrete input: a pass-through-only
argument list (`-q` only) has no `-o`, so after a passing log stage the
invocation ends in the uncaught `ValueError` with no timing line. -/
theorem C6_witness :
    mainAfterWait ⟨false, true, false, false, false, false⟩
        ⟨"", "1 1", 0⟩ ⟨"", "1 1", 0⟩ ["-q"] [] ⟨0, "", [], "", ""⟩ =
      ⟨none, Outcome.pyError "ValueError"⟩ ∧
    (mainAfterWait ⟨false, true, false, false, false, false⟩
        ⟨"", "1 1", 0⟩ ⟨"", "1 1", 0⟩ ["-q"] [] ⟨0, "", [], "", ""⟩).timingLine = none ∧
    exitStatusOf (mainAfterWait ⟨false, true, false, false, false, false⟩
        ⟨"", "1 1", 0⟩ ⟨"", "1 1", 0⟩ ["-q"] [] ⟨0, "", [], "", ""⟩).outcome = 1 :=
  C6_no_output_flag_raises ⟨false, true, false, false, false, false⟩
    ⟨"", "1 1", 0⟩ ⟨"", "1 1", 0⟩ ["-q"] [] ⟨0, "", [], "", ""⟩
    (by decide) (by decide)
